import Mathlib

/-!
Verification of the flashcards terminal application.

This file gives a shallow embedding of the program's core: the line store
(`read_nonempty_lines` / `write_atomic`), the deck engine
(`FlashCardEngine` with its operations), and the screen state machine
(`App`, `handle`, and the event loop `runEvents`), together with theorems
about the behaviour of these operations.

Modelling conventions:
* Rust `String` values are sequences of characters (`Str`); the byte-indexed
  string operations are modelled with explicit UTF-8 byte arithmetic, and an
  invalid index (out of bounds or not on a character boundary) is the Rust
  panic, represented by `none` / `Step.panic`.
* File contents are flat character sequences; the topic directory side
  effects and the success of each atomic write are abstracted into `World`
  and `Env`.
* The random stream feeding the shuffle is an arbitrary function
  `Nat → Nat`; theorems about the shuffle hold for every such stream.
-/

/-- A Rust `String`, modelled as its sequence of characters. -/
abbrev Str := List Char

/-- Total UTF-8 byte length of a string (Rust `String::len`). -/
def utf8Len (s : Str) : Nat := (s.map Char.utf8Size).sum

/-- Split a string at a byte offset.  Returns `none` when the offset is out
of bounds or falls strictly inside the UTF-8 encoding of a character — the
situations in which Rust's byte-indexed string operations panic. -/
def byteSplit : Str → Nat → Option (Str × Str)
  | s, 0 => some ([], s)
  | [], _ + 1 => none
  | c :: rest, n + 1 =>
    if c.utf8Size ≤ n + 1 then
      (byteSplit rest (n + 1 - c.utf8Size)).map (fun p => (c :: p.1, p.2))
    else
      none

/-- Rust `String::insert(idx, c)`; `none` models the panic on an invalid
byte index. -/
def strInsert (s : Str) (idx : Nat) (c : Char) : Option Str :=
  (byteSplit s idx).map fun p => p.1 ++ c :: p.2

/-- Rust `String::remove(idx)`; `none` models the panic on an invalid byte
index. -/
def strRemove (s : Str) (idx : Nat) : Option Str :=
  (byteSplit s idx).bind fun p =>
    match p.2 with
    | [] => none
    | _ :: rest => some (p.1 ++ rest)

/-- Rust `char::is_whitespace`: the Unicode `White_Space` property. -/
def isWS (c : Char) : Bool :=
  decide ((9 ≤ c.toNat ∧ c.toNat ≤ 13) ∨ c.toNat = 32 ∨ c.toNat = 0x85 ∨
    c.toNat = 0xA0 ∨ c.toNat = 0x1680 ∨ (0x2000 ≤ c.toNat ∧ c.toNat ≤ 0x200A) ∨
    c.toNat = 0x2028 ∨ c.toNat = 0x2029 ∨ c.toNat = 0x202F ∨
    c.toNat = 0x205F ∨ c.toNat = 0x3000)

/-- Rust `str::trim`: drop whitespace from both ends. -/
def trim (s : Str) : Str :=
  ((s.dropWhile isWS).reverse.dropWhile isWS).reverse

/-- Split a character sequence at every newline (`n` separators yield
`n + 1` pieces). -/
def splitLines : Str → List Str
  | [] => [[]]
  | c :: rest =>
    if c = '\n' then [] :: splitLines rest
    else
      match splitLines rest with
      | [] => [[c]]
      | h :: t => (c :: h) :: t

/-- `BufRead::lines` strips one trailing carriage return from each line. -/
def stripCR (l : Str) : Str := if l.getLast? = some '\r' then l.dropLast else l

/-- Rust `BufRead::lines` on a file's contents: split at newlines, with no
empty final line when the contents end in a newline. -/
def rustLines (s : Str) : List Str :=
  if s = [] then []
  else
    (if s.getLast? = some '\n' then (splitLines s).dropLast else splitLines s).map stripCR

/-- `read_nonempty_lines`, applied to the contents of the file: split into
lines, trim each, drop the lines that are empty after trimming. -/
def read_nonempty_lines (content : Str) : List Str :=
  ((rustLines content).map trim).filter (fun l => !l.isEmpty)

/-- The contents produced by writing each line followed by a newline. -/
def encodeLines (lines : List Str) : Str := (lines.map (fun l => l ++ ['\n'])).flatten

/-- `write_atomic`: on success the destination holds exactly the encoded
lines (write to a temporary file, then rename); on failure an error is
reported and the destination is untouched. -/
def write_atomic (ok : Bool) (lines : List Str) : Except Unit Str :=
  if ok then .ok (encodeLines lines) else .error ()

/-- The load failure of `from_files`: mismatched question/answer counts
(the two counts are carried in the error). -/
inductive LoadError where
  | mismatch (questionCount answerCount : Nat)
deriving DecidableEq

/-- An error propagated with `?` out of `handle`: a load failure or an I/O
failure from `persist_edits`. -/
inductive AppError where
  | load (e : LoadError)
  | io
deriving DecidableEq

/-- `BTreeMap<usize, String>::insert`: ordered insert, replacing an existing
key (last write wins). -/
def mapInsert (k : Nat) (v : Str) : List (Nat × Str) → List (Nat × Str)
  | [] => [(k, v)]
  | (k', v') :: rest =>
    if k < k' then (k, v) :: (k', v') :: rest
    else if k = k' then (k, v) :: rest
    else (k', v') :: mapInsert k v rest

/-- `BTreeMap<usize, String>::get`. -/
def mapGet (k : Nat) : List (Nat × Str) → Option Str
  | [] => none
  | (k', v') :: rest => if k = k' then some v' else mapGet k rest

/-- `BTreeSet<usize>::insert`. -/
def setInsert (k : Nat) : List Nat → List Nat
  | [] => [k]
  | k' :: rest =>
    if k < k' then k :: k' :: rest
    else if k = k' then k' :: rest
    else k' :: setInsert k rest

/-- Swap two positions of a list (`<[T]>::swap`; at every call site below
the indices are in bounds, and an out-of-bounds index leaves the list
unchanged). -/
def listSwap (l : List α) (i j : Nat) : List α :=
  match l.get? i with
  | none => l
  | some x =>
    match l.get? j with
    | none => l
    | some y => (l.set i y).set j x

/-- The Fisher–Yates loop of `rand`'s `SliceRandom::shuffle`: for `i` from
`len - 1` down to `1`, swap position `i` with the drawn position
`rng i % (i + 1)`. -/
def fyLoop (rng : Nat → Nat) : Nat → List Nat → List Nat
  | 0, l => l
  | i + 1, l => fyLoop rng i (listSwap l (i + 1) (rng (i + 1) % (i + 2)))

/-- `SliceRandom::shuffle` driven by the random stream `rng`. -/
def shuffle (rng : Nat → Nat) (l : List Nat) : List Nat := fyLoop rng (l.length - 1) l

/-- One card's block in the transcript written by `save_session`: 1-based
session position, 1-based deck position, question, the recorded response
(or the `(none)` placeholder), and the answer. -/
structure Entry where
  sessionPos : Nat
  deckPos : Nat
  question : Str
  response : Str
  answer : Str
deriving DecidableEq

/-- The literal placeholder written for an unanswered card. -/
def noneStr : Str := ['(', 'n', 'o', 'n', 'e', ')']

/-- The deck engine.  The two backing file paths are represented by the
active-topic file contents held in `World`. -/
structure FlashCardEngine where
  questions : List Str
  answers : List Str
  order : List Nat
  current : Nat
  random : Bool
  responses : List (Nat × Str)
  seen : List Nat
deriving DecidableEq

namespace FlashCardEngine

/-- `FlashCardEngine::from_files`, applied to the contents of the two
files. -/
def from_files (qContent aContent : Str) : Except LoadError FlashCardEngine :=
  let questions := read_nonempty_lines qContent
  let answers := read_nonempty_lines aContent
  if questions.length ≠ answers.length then
    .error (.mismatch questions.length answers.length)
  else
    .ok { questions := questions, answers := answers,
          order := List.range questions.length, current := 0, random := false,
          responses := [], seen := [] }

/-- `set_random`: rebuild `order` as the identity, shuffle it when `mode`
is true, and reset `current`. -/
def set_random (e : FlashCardEngine) (mode : Bool) (rng : Nat → Nat) : FlashCardEngine :=
  let base := List.range e.questions.length
  { e with random := mode,
           order := if mode then shuffle rng base else base,
           current := 0 }

/-- `current_card`.  The outer `Option` is `none` exactly when the deck
indexing `questions[i]` / `answers[i]` would panic; the inner `Option` is
the function's own result. -/
def current_card (e : FlashCardEngine) : Option (Option (Nat × Str × Str)) :=
  match e.order.get? e.current with
  | none => some none
  | some i =>
    match e.questions.get? i, e.answers.get? i with
    | some q, some a => some (some (i, q, a))
    | _, _ => none

/-- `record`: insert the response (overwriting any earlier one) and mark
the index seen. -/
def record (e : FlashCardEngine) (idx : Nat) (resp : Str) : FlashCardEngine :=
  { e with responses := mapInsert idx resp e.responses,
           seen := setInsert idx e.seen }

/-- `next`: advance the cursor. -/
def next (e : FlashCardEngine) : FlashCardEngine := { e with current := e.current + 1 }

/-- `done`: the session is complete. -/
def done (e : FlashCardEngine) : Bool := decide (e.order.length ≤ e.current)

/-- The body of `save_session`'s loop over `order` (`none` models the panic
on an out-of-range deck index). -/
def save_session_go (e : FlashCardEngine) : Nat → List Nat → Option (List Entry)
  | _, [] => some []
  | i, idx :: rest =>
    match e.questions.get? idx, e.answers.get? idx with
    | some q, some a =>
      (save_session_go e (i + 1) rest).map
        (fun t => ⟨i + 1, idx + 1, q, (mapGet idx e.responses).getD noneStr, a⟩ :: t)
    | _, _ => none

/-- `save_session`: the transcript body, one block per card in study
order. -/
def save_session (e : FlashCardEngine) : Option (List Entry) :=
  save_session_go e 0 e.order

end FlashCardEngine

/-- The screen tag (`Screen` in the source). -/
inductive Screen where
  | mode | ask | reveal | review | editQuestion | editAnswer | done
  | topicSelect | topicCreate | mainMenu | cardList | confirmQuit
deriving DecidableEq

/-- The controller state (`App` in the source). -/
structure App where
  eng : Option FlashCardEngine
  screen : Screen
  input : Str
  cursor : Nat
  review_scroll : Nat
  topics : List Str
  selected_topic : Nat
  topic_input : Str
  current_topic : Option Str
  in_edit_mode : Bool
  selected_card : Nat
  prev_screen : Option Screen
deriving DecidableEq

/-- `App::new`. -/
def App.new : App where
  eng := none
  screen := .topicSelect
  input := []
  cursor := 0
  review_scroll := 0
  topics := []
  selected_topic := 0
  topic_input := []
  current_topic := none
  in_edit_mode := false
  selected_card := 0
  prev_screen := none

/-- `App::new` followed by `load_topics`, whose scan of the topics
directory produced `topics`. -/
def initialApp (topics : List Str) : App := { App.new with topics := topics }

/-- On-disk state relevant to the active topic: the contents of its
questions and answers files, and the log of topic directories ensured to
exist (in call order). -/
structure World where
  activeQ : Str
  activeA : Str
  createdDirs : List Str
deriving DecidableEq

/-- External inputs fixed for a run: the random stream feeding the shuffle,
whether each atomic write succeeds, and the on-disk file contents found
for a topic when it is opened (after the missing files are auto-created). -/
structure Env where
  rng : Nat → Nat
  persistOkQ : Bool
  persistOkA : Bool
  topicFiles : Str → Str × Str

/-- `FlashCardEngine::persist_edits`: write the questions file, then the
answers file, each atomically; the first failure aborts with an I/O
error, leaving the remaining destination untouched. -/
def persist_edits (env : Env) (e : FlashCardEngine) (w : World) : World × Option AppError :=
  match write_atomic env.persistOkQ e.questions with
  | .error _ => (w, some .io)
  | .ok qc =>
    let w1 := { w with activeQ := qc }
    match write_atomic env.persistOkA e.answers with
    | .error _ => (w1, some .io)
    | .ok ac => ({ w1 with activeA := ac }, none)

/-- `App::load_eng`: ensure the topic directory and its two files exist,
then load an engine from their contents; on a load failure the directory
side effect has already happened. -/
def load_eng (env : Env) (a : App) (w : World) (topic : Str) :
    World × Except LoadError App :=
  let qa := env.topicFiles topic
  let w' := { w with createdDirs := w.createdDirs ++ [topic],
                     activeQ := qa.1, activeA := qa.2 }
  match FlashCardEngine.from_files qa.1 qa.2 with
  | .error err => (w', .error err)
  | .ok e => (w', .ok { a with eng := some e, current_topic := some topic })

/-- The key events consumed by `handle`: `char c ctrl` is
`KeyCode::Char(c)` with the state of the CONTROL modifier. -/
inductive KeyEvt where
  | char (c : Char) (ctrl : Bool)
  | enter | esc | backspace | delete | up | down | left | right
deriving DecidableEq

/-- The result of one `handle` call: a normal return (with the `bool`
telling the loop to break), an error propagated with `?`, or a panic. -/
inductive Step where
  | ok (a : App) (w : World) (quit : Bool)
  | err (a : App) (w : World) (e : AppError)
  | panic
deriving DecidableEq

/-- Lexicographic order on strings (the `Ord` used by `Vec::sort` on
topic names; UTF-8 byte order coincides with code-point order). -/
def strLe (a b : Str) : Bool :=
  match a, b with
  | [], _ => true
  | _ :: _, [] => false
  | c :: a', d :: b' => if c = d then strLe a' b' else decide (c < d)

/-- Ordered insert for the insertion sort below. -/
def insSorted (x : Str) : List Str → List Str
  | [] => [x]
  | y :: t => if strLe x y then x :: y :: t else y :: insSorted x t

/-- `Vec::<String>::sort` (insertion sort; equal strings are identical, so
this agrees with any stable sort). -/
def sortStrs (l : List Str) : List Str := l.foldr insSorted []

/-- One call of `handle`: the Ctrl+Q interception followed by the
per-screen key dispatch.  `Step.panic` marks a Rust panic (an invalid
index); `Step.err` an error propagated with `?`. -/
def handle (env : Env) (a0 : App) (w : World) (k : KeyEvt) : Step :=
  let a := if k = .char 'q' true
    then { a0 with prev_screen := some a0.screen, screen := .confirmQuit }
    else a0
  match a.screen with
  | .topicSelect =>
    match k with
    | .up => .ok { a with selected_topic := a.selected_topic - 1 } w false
    | .down =>
      .ok { a with selected_topic := min (a.selected_topic + 1) (a.topics.length - 1) } w false
    | .enter =>
      if a.topics.isEmpty then .ok a w false
      else
        match a.topics.get? a.selected_topic with
        | none => .panic
        | some topic =>
          match load_eng env a w topic with
          | (w', .error e) => .err a w' (.load e)
          | (w', .ok a') => .ok { a' with screen := .mainMenu } w' false
    | .char c _ =>
      if c = 'c' ∨ c = 'C' then
        .ok { a with topic_input := [], cursor := 0, screen := .topicCreate } w false
      else .ok a w false
    | _ => .ok a w false
  | .topicCreate =>
    match k with
    | .enter =>
      let name := a.topic_input
      let a1 := { a with topic_input := [] }
      if name ≠ [] then
        match load_eng env a1 w name with
        | (w', .error e) => .err a1 w' (.load e)
        | (w', .ok a') =>
          .ok { a' with topics := sortStrs (a'.topics ++ [name]), screen := .mainMenu } w' false
      else .ok { a1 with screen := .topicSelect } w false
    | .esc => .ok { a with screen := .topicSelect } w false
    | .char c _ =>
      match strInsert a.topic_input a.cursor c with
      | none => .panic
      | some s => .ok { a with topic_input := s, cursor := a.cursor + 1 } w false
    | .backspace =>
      if a.cursor > 0 then
        match strRemove a.topic_input (a.cursor - 1) with
        | none => .panic
        | some s => .ok { a with topic_input := s, cursor := a.cursor - 1 } w false
      else .ok a w false
    | .delete =>
      if a.cursor < utf8Len a.topic_input then
        match strRemove a.topic_input a.cursor with
        | none => .panic
        | some s => .ok { a with topic_input := s } w false
      else .ok a w false
    | .left => .ok { a with cursor := a.cursor - 1 } w false
    | .right => .ok { a with cursor := min (a.cursor + 1) (utf8Len a.topic_input) } w false
    | _ => .ok a w false
  | .mainMenu =>
    match k with
    | .char c _ =>
      if c = 's' ∨ c = 'S' then
        .ok { a with in_edit_mode := false, screen := .mode } w false
      else if c = 'e' ∨ c = 'E' then
        .ok { a with in_edit_mode := true, screen := .cardList } w false
      else if c = 'b' ∨ c = 'B' then
        .ok { a with eng := none, current_topic := none, screen := .topicSelect } w false
      else .ok a w false
    | _ => .ok a w false
  | .cardList =>
    match k with
    | .up => .ok { a with selected_card := a.selected_card - 1 } w false
    | .down =>
      match a.eng with
      | some e =>
        .ok { a with selected_card := min (a.selected_card + 1) (e.questions.length - 1) } w false
      | none => .ok a w false
    | .char c _ =>
      if c = 'e' ∨ c = 'E' then
        match a.eng with
        | some e =>
          if a.selected_card < e.questions.length then
            match e.questions.get? a.selected_card with
            | none => .panic
            | some q =>
              .ok { a with eng := some { e with current := a.selected_card },
                           input := q, cursor := utf8Len q,
                           screen := .editQuestion } w false
          else .ok a w false
        | none => .ok a w false
      else if c = 'a' ∨ c = 'A' then
        match a.eng with
        | some e =>
          if a.selected_card < e.questions.length then
            match e.answers.get? a.selected_card with
            | none => .panic
            | some ans =>
              .ok { a with eng := some { e with current := a.selected_card },
                           input := ans, cursor := utf8Len ans,
                           screen := .editAnswer } w false
          else .ok a w false
        | none => .ok a w false
      else if c = 'n' ∨ c = 'N' then
        match a.eng with
        | some e =>
          let e' := { e with questions := e.questions ++ [[]],
                             answers := e.answers ++ [[]],
                             order := List.range (e.questions.length + 1) }
          let newIdx := e'.questions.length - 1
          .ok { a with eng := some { e' with current := newIdx },
                       selected_card := newIdx, input := [], cursor := 0,
                       screen := .editQuestion } w false
        | none => .ok a w false
      else if c = 'd' ∨ c = 'D' then
        match a.eng with
        | some e =>
          if a.selected_card < e.questions.length then
            if a.selected_card < e.answers.length then
              let e' := { e with questions := e.questions.eraseIdx a.selected_card,
                                 answers := e.answers.eraseIdx a.selected_card,
                                 order := List.range (e.questions.length - 1) }
              let sc := if e'.questions.length ≤ a.selected_card
                then e'.questions.length - 1 else a.selected_card
              .ok { a with eng := some e', selected_card := sc } w false
            else .panic
          else
            let sc := if e.questions.length ≤ a.selected_card
              then e.questions.length - 1 else a.selected_card
            .ok { a with selected_card := sc } w false
        | none => .ok a w false
      else if c = 's' ∨ c = 'S' then
        match a.eng with
        | some e =>
          match persist_edits env e w with
          | (w', some err) => .err a w' err
          | (w', none) => .ok a w' false
        | none => .ok a w false
      else if c = 'b' ∨ c = 'B' then .ok { a with screen := .mainMenu } w false
      else .ok a w false
    | _ => .ok a w false
  | .mode =>
    match k with
    | .char c _ =>
      if c = 'y' ∨ c = 'Y' then
        match a.eng with
        | some e =>
          .ok { a with eng := some (e.set_random true env.rng), screen := .ask } w false
        | none => .ok a w false
      else if c = 'n' ∨ c = 'N' then
        match a.eng with
        | some e =>
          .ok { a with eng := some (e.set_random false env.rng), screen := .ask } w false
        | none => .ok a w false
      else .ok a w false
    | _ => .ok a w false
  | .ask =>
    match k with
    | .enter =>
      match a.eng with
      | some e =>
        match e.current_card with
        | none => .panic
        | some none => .ok a w false
        | some (some (idx, _, _)) =>
          .ok { a with eng := some (e.record idx a.input), input := [], cursor := 0,
                       screen := .reveal } w false
      | none => .ok a w false
    | .char c ctrl =>
      if c = 'r' ∧ ctrl then .ok { a with screen := .review } w false
      else
        match strInsert a.input a.cursor c with
        | none => .panic
        | some s => .ok { a with input := s, cursor := a.cursor + 1 } w false
    | .backspace =>
      if a.cursor > 0 then
        match strRemove a.input (a.cursor - 1) with
        | none => .panic
        | some s => .ok { a with input := s, cursor := a.cursor - 1 } w false
      else .ok a w false
    | .delete =>
      if a.cursor < utf8Len a.input then
        match strRemove a.input a.cursor with
        | none => .panic
        | some s => .ok { a with input := s } w false
      else .ok a w false
    | .left => .ok { a with cursor := a.cursor - 1 } w false
    | .right => .ok { a with cursor := min (a.cursor + 1) (utf8Len a.input) } w false
    | _ => .ok a w false
  | .reveal =>
    match k with
    | .enter =>
      match a.eng with
      | some e =>
        let e' := e.next
        if e'.done then .ok { a with eng := some e', screen := .done } w false
        else .ok { a with eng := some e', input := [], screen := .ask } w false
      | none => .ok a w false
    | .char c ctrl =>
      if c = 'n' ∨ c = 'N' then
        match a.eng with
        | some e =>
          let e' := e.next
          if e'.done then .ok { a with eng := some e', screen := .done } w false
          else .ok { a with eng := some e', input := [], screen := .ask } w false
        | none => .ok a w false
      else if c = 'r' ∧ ctrl then .ok { a with screen := .review } w false
      else if c = 'e' ∧ ctrl then
        match a.eng with
        | some e =>
          match e.current_card with
          | none => .panic
          | some none => .ok a w false
          | some (some (_, q, _)) =>
            .ok { a with input := q, cursor := utf8Len q, screen := .editQuestion } w false
        | none => .ok a w false
      else if c = 'a' ∧ ctrl then
        match a.eng with
        | some e =>
          match e.current_card with
          | none => .panic
          | some none => .ok a w false
          | some (some (_, _, ans)) =>
            .ok { a with input := ans, cursor := utf8Len ans, screen := .editAnswer } w false
        | none => .ok a w false
      else .ok a w false
    | _ => .ok a w false
  | .editQuestion =>
    let ret : Screen := if a.in_edit_mode then .cardList else .reveal
    match k with
    | .enter =>
      match a.eng with
      | some e =>
        if e.current < e.questions.length then
          .ok { a with eng := some { e with questions := e.questions.set e.current a.input },
                       screen := ret } w false
        else .panic
      | none => .ok { a with screen := ret } w false
    | .esc => .ok { a with screen := ret } w false
    | .char c ctrl =>
      if c = 's' ∧ ctrl then
        match a.eng with
        | some e =>
          match persist_edits env e w with
          | (w', some err) => .err a w' err
          | (w', none) => .ok a w' false
        | none => .ok a w false
      else
        match strInsert a.input a.cursor c with
        | none => .panic
        | some s => .ok { a with input := s, cursor := a.cursor + 1 } w false
    | .backspace =>
      if a.cursor > 0 then
        match strRemove a.input (a.cursor - 1) with
        | none => .panic
        | some s => .ok { a with input := s, cursor := a.cursor - 1 } w false
      else .ok a w false
    | .delete =>
      if a.cursor < utf8Len a.input then
        match strRemove a.input a.cursor with
        | none => .panic
        | some s => .ok { a with input := s } w false
      else .ok a w false
    | .left => .ok { a with cursor := a.cursor - 1 } w false
    | .right => .ok { a with cursor := min (a.cursor + 1) (utf8Len a.input) } w false
    | _ => .ok a w false
  | .editAnswer =>
    let ret : Screen := if a.in_edit_mode then .cardList else .reveal
    match k with
    | .enter =>
      match a.eng with
      | some e =>
        if e.current < e.answers.length then
          .ok { a with eng := some { e with answers := e.answers.set e.current a.input },
                       screen := ret } w false
        else .panic
      | none => .ok { a with screen := ret } w false
    | .esc => .ok { a with screen := ret } w false
    | .char c ctrl =>
      if c = 's' ∧ ctrl then
        match a.eng with
        | some e =>
          match persist_edits env e w with
          | (w', some err) => .err a w' err
          | (w', none) => .ok a w' false
        | none => .ok a w false
      else
        match strInsert a.input a.cursor c with
        | none => .panic
        | some s => .ok { a with input := s, cursor := a.cursor + 1 } w false
    | .backspace =>
      if a.cursor > 0 then
        match strRemove a.input (a.cursor - 1) with
        | none => .panic
        | some s => .ok { a with input := s, cursor := a.cursor - 1 } w false
      else .ok a w false
    | .delete =>
      if a.cursor < utf8Len a.input then
        match strRemove a.input a.cursor with
        | none => .panic
        | some s => .ok { a with input := s } w false
      else .ok a w false
    | .left => .ok { a with cursor := a.cursor - 1 } w false
    | .right => .ok { a with cursor := min (a.cursor + 1) (utf8Len a.input) } w false
    | _ => .ok a w false
  | .review =>
    match k with
    | .up => .ok { a with review_scroll := a.review_scroll - 1 } w false
    | .down => .ok { a with review_scroll := min (a.review_scroll + 1) 65535 } w false
    | .char c ctrl =>
      if c = 'b' ∧ ctrl then
        .ok { a with screen :=
          match a.eng with
          | some e => if e.done then Screen.done else Screen.ask
          | none => Screen.ask } w false
      else .ok a w false
    | .esc =>
      .ok { a with screen :=
        match a.eng with
        | some e => if e.done then Screen.done else Screen.ask
        | none => Screen.ask } w false
    | _ => .ok a w false
  | .done =>
    match k with
    | .char c _ =>
      if c = 'r' ∨ c = 'R' then .ok { a with screen := .review } w false
      else .ok a w false
    | _ => .ok a w false
  | .confirmQuit =>
    match k with
    | .char c _ =>
      if c = 'y' ∨ c = 'Y' then .ok a w true
      else if c = 'n' ∨ c = 'N' then
        match a.prev_screen with
        | some prev => .ok { a with screen := prev, prev_screen := none } w false
        | none => .ok { a with prev_screen := none } w false
      else .ok a w false
    | _ => .ok a w false

/-- Result of running the event loop on a finite list of key events. -/
inductive RunResult where
  | pending (a : App) (w : World)
  | quit (a : App) (w : World)
  | errored (a : App) (w : World) (e : AppError)
  | panicked
deriving DecidableEq

/-- `run_app`'s event loop on a finite sequence of key events: the loop
breaks with `quit` when `handle` returns true and stops with `errored`
when an error propagates through `?` (the remaining events are never
processed); `pending` means the loop is still alive after the last
event. -/
def runEvents (env : Env) : App → World → List KeyEvt → RunResult
  | a, w, [] => .pending a w
  | a, w, k :: ks =>
    match handle env a w k with
    | .ok a' w' true => .quit a' w'
    | .ok a' w' false => runEvents env a' w' ks
    | .err a' w' e => .errored a' w' e
    | .panic => .panicked

/-- The controller state carried by a loop result (absent after a panic,
which aborts the process). -/
def RunResult.app : RunResult → Option App
  | .pending a _ => some a
  | .quit a _ => some a
  | .errored a _ _ => some a
  | .panicked => none

/-- The on-disk state carried by a loop result. -/
def RunResult.world : RunResult → Option World
  | .pending _ w => some w
  | .quit _ w => some w
  | .errored _ w _ => some w
  | .panicked => none

/-- The engine carried by a loop result. -/
def RunResult.engine (r : RunResult) : Option FlashCardEngine := r.app.bind App.eng

/-- The engine carried by one `handle` step. -/
def Step.engine : Step → Option FlashCardEngine
  | .ok a _ _ => a.eng
  | .err a _ _ => a.eng
  | .panic => none

/-- The save-on-exit guard at the end of `main`: the transcript is written
only when the final screen is the done screen and the response map is
non-empty. -/
def mainEpilogue (a : App) : Option (List Entry) :=
  if a.screen = .done then
    match a.eng with
    | some e => if e.responses ≠ [] then e.save_session else none
    | none => none
  else none

/-! ### Helper lemmas about the shuffler -/

/-- Replacing position `k` (holding `y`) by `a` and re-consing `y` is a
permutation of consing `a`. -/
theorem cons_set_perm (t : List α) (k : Nat) (y a : α) (h : t.get? k = some y) :
    (y :: t.set k a).Perm (a :: t) := by
  induction t generalizing k with
  | nil => simp at h
  | cons c t' ih =>
    cases k with
    | zero =>
      simp only [List.get?_cons_zero, Option.some.injEq] at h
      subst h
      simpa [List.set_cons_zero] using List.Perm.swap a c t'
    | succ m =>
      simp only [List.get?_cons_succ] at h
      rw [List.set_cons_succ]
      exact ((List.Perm.swap c y _).trans (List.Perm.cons c (ih m h))).trans
        (List.Perm.swap a c t')

/-- A double `set` realising a swap is a permutation. -/
theorem set_set_perm (l : List α) (i j : Nat) (x y : α)
    (hi : l.get? i = some x) (hj : l.get? j = some y) :
    ((l.set i y).set j x).Perm l := by
  induction l generalizing i j with
  | nil => simp at hi
  | cons a t ih =>
    cases i with
    | zero =>
      simp only [List.get?_cons_zero, Option.some.injEq] at hi
      subst hi
      cases j with
      | zero =>
        simp only [List.get?_cons_zero, Option.some.injEq] at hj
        subst hj
        simp [List.set_cons_zero]
      | succ m =>
        simp only [List.get?_cons_succ] at hj
        simpa [List.set_cons_zero, List.set_cons_succ] using cons_set_perm t m y a hj
    | succ k =>
      simp only [List.get?_cons_succ] at hi
      cases j with
      | zero =>
        simp only [List.get?_cons_zero, Option.some.injEq] at hj
        subst hj
        simpa [List.set_cons_zero, List.set_cons_succ] using cons_set_perm t k x a hi
      | succ m =>
        simp only [List.get?_cons_succ] at hj
        simpa [List.set_cons_succ] using List.Perm.cons a (ih k m hi hj)

/-- `listSwap` permutes the list. -/
theorem listSwap_perm (l : List α) (i j : Nat) : (listSwap l i j).Perm l := by
  unfold listSwap
  split
  · exact List.Perm.refl l
  · next x hi =>
    split
    · exact List.Perm.refl l
    · next y hj => exact set_set_perm l i j x y hi hj

/-- Every pass of the Fisher–Yates loop permutes the list. -/
theorem fyLoop_perm (rng : Nat → Nat) : ∀ (k : Nat) (l : List Nat), (fyLoop rng k l).Perm l
  | 0, l => List.Perm.refl l
  | k + 1, l => (fyLoop_perm rng k _).trans (listSwap_perm l (k + 1) _)

/-- `shuffle` permutes the list, for every random stream. -/
theorem shuffle_perm (rng : Nat → Nat) (l : List Nat) : (shuffle rng l).Perm l :=
  fyLoop_perm rng (l.length - 1) l

/-! ### Concrete scenarios

A small topic store used by the concrete runs below: one topic named `t`
whose files hold one or two cards, and worlds/environments for the
different runs. -/

/-- An initially empty on-disk state. -/
def w0 : World := ⟨[], [], []⟩

/-- The topic name used in the concrete runs. -/
def topicT : Str := ['t']

/-- Questions file with the two cards `q1`, `q2`. -/
def twoCardQ : Str := ['q', '1', '\n', 'q', '2', '\n']

/-- Answers file with the two answers `a1`, `a2`. -/
def twoCardA : Str := ['a', '1', '\n', 'a', '2', '\n']

/-- Questions file with the single card `q`. -/
def oneCardQ : Str := ['q', '\n']

/-- Answers file with the single answer `a`. -/
def oneCardA : Str := ['a', '\n']

/-- Environment: two-card topic, writes succeed, random stream constant 0
(so the Fisher–Yates pass swaps positions 1 and 0). -/
def envTwo : Env := ⟨fun _ => 0, true, true, fun _ => (twoCardQ, twoCardA)⟩

/-- Environment: one-card topic, writes succeed. -/
def envOne : Env := ⟨fun _ => 0, true, true, fun _ => (oneCardQ, oneCardA)⟩

/-- Environment: two-card topic, every atomic write fails (disk full). -/
def envTwoNoWrite : Env := ⟨fun _ => 0, false, false, fun _ => (twoCardQ, twoCardA)⟩

/-- Environment: every topic's files are (auto-created) empty. -/
def envEmptyTopic : Env := ⟨fun _ => 0, true, true, fun _ => ([], [])⟩

/-! ### Claims -/

/-- C1.  The claim fails on the code and the code contradicts the spec's
stated behaviour ("free-text edit of one field of the current card"): the
edit-from-reveal commit writes the buffer to `questions[current]`, the
*cursor position* into `order`, not to `questions[order[current]]`, the
card that `current_card()` returned and that was prefilled.  Concretely:
open the two-card topic, choose random mode (order becomes `[1, 0]`),
answer the first shown card (deck index 1), press Ctrl+E on reveal (the
buffer is prefilled with `q2`, the displayed question), type `!` and press
Enter.  The commit lands on `questions[0]`, so the deck ends as
`[q2!, q2]`: the edited card (deck index 1) still holds `q2`, while card 0
was silently overwritten.  The screen does return to reveal. -/
theorem C1_edit_from_reveal_commits_to_wrong_card :
    (runEvents envTwo (initialApp [topicT]) w0
      [.enter, .char 's' false, .char 'y' false, .enter,
       .char 'e' true, .char '!' false, .enter]).engine =
      some { questions := [['q', '2', '!'], ['q', '2']],
             answers := [['a', '1'], ['a', '2']],
             order := [1, 0], current := 0, random := true,
             responses := [(1, [])], seen := [1] } ∧
    ((runEvents envTwo (initialApp [topicT]) w0
      [.enter, .char 's' false, .char 'y' false, .enter,
       .char 'e' true, .char '!' false, .enter]).app).map App.screen =
      some Screen.reveal := by
  constructor <;> decide

/-- C2.  The claim fails on the code (and the spec's "no runtime error
should be reachable through normal navigation" is contradicted): the
cursor is advanced by one *per character* but used as a *byte* offset, so
typing a second character after any multi-byte character calls
`String::insert` at a byte position inside the first character's UTF-8
encoding, which panics.  Concretely: open a topic, start a sequential
session, and type `é` (two bytes) followed by any character on the ask
screen. -/
theorem C2_multibyte_typing_panics :
    runEvents envTwo (initialApp [topicT]) w0
      [.enter, .char 's' false, .char 'n' false,
       .char 'é' false, .char 'é' false] = .panicked := by
  decide

/-- C3.  The claim fails on the code: when `persist_edits` fails, the `?`
operator propagates the error out of `handle`, and `run_app`'s
`handle(app, key)?` exits the event loop with that error, terminating the
program — the user cannot retry.  The parts of the claim about state are
true and visible below: at the error the in-memory engine still equals the
freshly loaded deck and both destination files still hold their original
contents.  The trailing `b` key event is never processed. -/
theorem C3_persist_failure_terminates_loop :
    runEvents envTwoNoWrite (initialApp [topicT]) w0
      [.enter, .char 'e' false, .char 's' false, .char 'b' false] =
      .errored
        { eng := some { questions := [['q', '1'], ['q', '2']],
                        answers := [['a', '1'], ['a', '2']],
                        order := [0, 1], current := 0, random := false,
                        responses := [], seen := [] },
          screen := .cardList, input := [], cursor := 0, review_scroll := 0,
          topics := [topicT], selected_topic := 0, topic_input := [],
          current_topic := some topicT, in_edit_mode := true,
          selected_card := 0, prev_screen := none }
        { activeQ := twoCardQ, activeA := twoCardA, createdDirs := [topicT] }
        .io := by
  decide

/-- C4.  The claim fails on the code: the card-list delete handler rebuilds
`order` and re-clamps the *selection* index but never re-clamps
`eng.current`.  Concretely: open the two-card topic, enter edit mode,
select card 2 and open it for editing (this sets `current := 1`), cancel,
then delete twice.  The final engine has `current = 1` with
`order = []`, violating `current ≤ len(order)`. -/
theorem C4_delete_leaves_current_beyond_order :
    (runEvents envTwo (initialApp [topicT]) w0
      [.enter, .char 'e' false, .down, .char 'e' false, .esc,
       .char 'd' false, .char 'd' false]).engine =
      some { questions := [], answers := [], order := [], current := 1,
             random := false, responses := [], seen := [] } := by
  decide

/-- C5, counterexample.  Pressing the quit key twice in a row and then
answering "no" does *not* restore the screen the user was on before the
quit key was first pressed: from the review screen (scroll offset 2),
`Ctrl+Q, Ctrl+Q, n` ends on the confirm-quit screen (the second Ctrl+Q
stored confirm-quit itself in the previous-screen slot), not on review as
the claim requires; the slot is now empty, so review is no longer
restorable by answering "no" again. -/
theorem C5_double_quit_loses_previous_screen :
    ((runEvents envTwo (initialApp [topicT]) w0
      [.enter, .char 's' false, .char 'n' false, .char 'r' true, .down, .down,
       .char 'q' true, .char 'q' true, .char 'n' false]).app).map
      (fun a => (a.screen, a.review_scroll, a.prev_screen)) =
      some (Screen.confirmQuit, 2, none) := by
  decide

/-- C5, amended: pressing Ctrl+Q from *any* screen (including confirm-quit
itself) stores the current screen in the previous-screen slot and switches
to confirm-quit, before and instead of the screen's own handler, changing
nothing else; answering "no" on confirm-quit switches to exactly the
stored screen and clears the slot, changing nothing else (in particular
the review scroll offset is preserved); answering "yes" terminates the
loop.  Hence a single Ctrl+Q followed by "no" restores exactly the prior
screen with its transient state, but pressing Ctrl+Q twice in a row
stores confirm-quit itself, so "no" then returns to confirm-quit and the
original screen is not restored. -/
theorem C5_quit_capture_and_restore :
    (∀ (env : Env) (a : App) (w : World),
      handle env a w (.char 'q' true) =
        .ok { a with prev_screen := some a.screen, screen := .confirmQuit } w false) ∧
    (∀ (env : Env) (a : App) (w : World) (s : Screen),
      handle env { a with screen := .confirmQuit, prev_screen := some s } w
          (.char 'n' false) =
        .ok { a with screen := s, prev_screen := none } w false) ∧
    (∀ (env : Env) (a : App) (w : World),
      handle env { a with screen := .confirmQuit } w (.char 'y' false) =
        .ok { a with screen := .confirmQuit } w true) := by
  refine ⟨fun env a w => ?_, fun env a w s => ?_, fun env a w => ?_⟩ <;> cases a <;> rfl

instance {ε α : Type} [DecidableEq ε] [DecidableEq α] : DecidableEq (Except ε α)
  | .ok a, .ok b =>
    if h : a = b then .isTrue (by rw [h])
    else .isFalse (by intro hh; injection hh with h2; exact h h2)
  | .ok _, .error _ => .isFalse (by intro h; exact Except.noConfusion h)
  | .error _, .ok _ => .isFalse (by intro h; exact Except.noConfusion h)
  | .error a, .error b =>
    if h : a = b then .isTrue (by rw [h])
    else .isFalse (by intro hh; injection hh with h2; exact h h2)

/-- C6, counterexample.  Starting from the one-card topic, insert a new
blank card (`n`), leave its question empty, and give it the answer `b`;
the engine now holds `questions = [q, ""]`, `answers = [a, b]`.
`persist_edits` succeeds, but the blank question line is stripped by the
next load, so the fresh `from_files` fails with a 1-vs-2 count mismatch
instead of reproducing the in-memory sequences. -/
theorem C6_blank_card_breaks_roundtrip :
    ((runEvents envOne (initialApp [topicT]) w0
      [.enter, .char 'e' false, .char 'n' false, .esc, .char 'a' false,
       .char 'b' false, .enter]).engine).map
      (fun e => ((persist_edits envOne e w0).2,
        FlashCardEngine.from_files (persist_edits envOne e w0).1.activeQ
          (persist_edits envOne e w0).1.activeA)) =
      some (none, .error (.mismatch 1 2)) := by
  decide

/-- A card field that survives the write/read round trip unchanged: it is
non-empty, already trimmed, holds no newline, and does not end in a
carriage return. -/
def goodLine (l : Str) : Prop :=
  l ≠ [] ∧ trim l = l ∧ '\n' ∉ l ∧ l.getLast? ≠ some '\r'

instance : DecidablePred goodLine := fun l => by
  unfold goodLine
  exact inferInstance

theorem splitLines_append_newline (l s : Str) (h : '\n' ∉ l) :
    splitLines (l ++ '\n' :: s) = l :: splitLines s := by
  induction l with
  | nil => simp [splitLines]
  | cons c l' ih =>
    have hc : c ≠ '\n' := fun hh => h (hh ▸ List.mem_cons_self c l')
    have h' : '\n' ∉ l' := fun hm => h (List.mem_cons_of_mem c hm)
    simp only [List.cons_append, splitLines, if_neg hc, List.append_eq]
    rw [ih h']

theorem splitLines_encodeLines (ls : List Str) (h : ∀ l ∈ ls, '\n' ∉ l) :
    splitLines (encodeLines ls) = ls ++ [[]] := by
  induction ls with
  | nil => simp [encodeLines, splitLines]
  | cons l rest ih =>
    have hl : '\n' ∉ l := h l (List.mem_cons_self l rest)
    have h' : ∀ m ∈ rest, '\n' ∉ m := fun m hm => h m (List.mem_cons_of_mem l hm)
    calc splitLines (encodeLines (l :: rest))
        = splitLines (l ++ '\n' :: encodeLines rest) := by
          simp [encodeLines, List.append_assoc]
      _ = l :: splitLines (encodeLines rest) := splitLines_append_newline l _ hl
      _ = l :: (rest ++ [[]]) := by rw [ih h']
      _ = (l :: rest) ++ [[]] := rfl

theorem encodeLines_ne_nil (l : Str) (rest : List Str) :
    encodeLines (l :: rest) ≠ [] := by
  simp [encodeLines]

theorem encodeLines_getLast? (ls : List Str) (h : ls ≠ []) :
    (encodeLines ls).getLast? = some '\n' := by
  induction ls with
  | nil => exact absurd rfl h
  | cons l rest ih =>
    cases rest with
    | nil => simp [encodeLines]
    | cons m rest' =>
      have : encodeLines (l :: m :: rest') = (l ++ ['\n']) ++ encodeLines (m :: rest') := by
        simp [encodeLines]
      rw [this, List.getLast?_append, ih (by simp)]
      rfl

theorem rustLines_encodeLines (ls : List Str)
    (h : ∀ l ∈ ls, '\n' ∉ l ∧ l.getLast? ≠ some '\r') :
    rustLines (encodeLines ls) = ls := by
  cases ls with
  | nil => simp [encodeLines, rustLines]
  | cons l rest =>
    have hne := encodeLines_ne_nil l rest
    have hlast := encodeLines_getLast? (l :: rest) (by simp)
    have hsplit := splitLines_encodeLines (l :: rest) (fun m hm => (h m hm).1)
    rw [rustLines, if_neg hne, if_pos hlast, hsplit, List.dropLast_concat]
    have : ∀ m ∈ l :: rest, stripCR m = id m := by
      intro m hm
      simp only [stripCR, if_neg (h m hm).2, id]
    rw [List.map_congr_left this, List.map_id]

theorem read_encode (ls : List Str) (h : ∀ l ∈ ls, goodLine l) :
    read_nonempty_lines (encodeLines ls) = ls := by
  rw [read_nonempty_lines,
    rustLines_encodeLines ls (fun m hm => ⟨(h m hm).2.2.1, (h m hm).2.2.2⟩)]
  have hmap : ∀ m ∈ ls, trim m = id m := fun m hm => (h m hm).2.1
  rw [List.map_congr_left hmap, List.map_id]
  exact List.filter_eq_self.mpr (fun m hm => by
    simpa [List.isEmpty_iff] using (h m hm).1)

/-- C6, amended: `persist_edits()` followed by a fresh `from_files()` on
the written contents succeeds and reproduces the in-memory `questions`
and `answers` sequences exactly — *provided* every card field is already
in the normal form that the first load establishes (non-empty, trimmed,
newline-free, not ending in a carriage return) and the two sequences have
equal length.  (The counterexample shows the unrestricted claim fails for
states produced by inserting blank cards or blanking a field in an edit:
such lines are stripped on reload, so the reload either drops them or
fails with a count mismatch.) -/
theorem C6_roundtrip_normalized (env : Env) (e : FlashCardEngine) (w : World)
    (hokQ : env.persistOkQ = true) (hokA : env.persistOkA = true)
    (hq : ∀ l ∈ e.questions, goodLine l) (ha : ∀ l ∈ e.answers, goodLine l)
    (hlen : e.questions.length = e.answers.length) :
    (persist_edits env e w).2 = none ∧
    FlashCardEngine.from_files (persist_edits env e w).1.activeQ
        (persist_edits env e w).1.activeA =
      .ok { questions := e.questions, answers := e.answers,
            order := List.range e.questions.length, current := 0, random := false,
            responses := [], seen := [] } := by
  have hp : persist_edits env e w =
      ({ w with activeQ := encodeLines e.questions, activeA := encodeLines e.answers },
        none) := by
    simp [persist_edits, write_atomic, hokQ, hokA]
  rw [hp]
  refine ⟨rfl, ?_⟩
  rw [FlashCardEngine.from_files]
  simp only [read_encode e.questions hq, read_encode e.answers ha]
  rw [if_neg (by omega)]

/-- Witness for the amended C6 round trip at a concrete two-card engine. -/
theorem C6_roundtrip_normalized_witness :
    ((∀ l ∈ ([[ 'q', '1'], ['q', '2']] : List Str), goodLine l) ∧
     (∀ l ∈ ([[ 'a', '1'], ['a', '2']] : List Str), goodLine l)) ∧
    ((persist_edits envTwo
        { questions := [['q', '1'], ['q', '2']], answers := [['a', '1'], ['a', '2']],
          order := [0, 1], current := 0, random := false, responses := [], seen := [] }
        w0).2 = none ∧
      FlashCardEngine.from_files
        (persist_edits envTwo
          { questions := [['q', '1'], ['q', '2']], answers := [['a', '1'], ['a', '2']],
            order := [0, 1], current := 0, random := false, responses := [], seen := [] }
          w0).1.activeQ
        (persist_edits envTwo
          { questions := [['q', '1'], ['q', '2']], answers := [['a', '1'], ['a', '2']],
            order := [0, 1], current := 0, random := false, responses := [], seen := [] }
          w0).1.activeA =
      .ok { questions := [['q', '1'], ['q', '2']], answers := [['a', '1'], ['a', '2']],
            order := List.range 2, current := 0, random := false,
            responses := [], seen := [] }) :=
  ⟨⟨by decide, by decide⟩,
    C6_roundtrip_normalized envTwo
      { questions := [['q', '1'], ['q', '2']], answers := [['a', '1'], ['a', '2']],
        order := [0, 1], current := 0, random := false, responses := [], seen := [] }
      w0 rfl rfl (by decide) (by decide) rfl⟩

/-- C7.  `set_mode(false)` yields the identity order `[0, …, n-1]`;
`set_mode(true)` yields a permutation of the same index multiset for
*every* outcome of the random shuffle (every random stream), equivalently
its sort is exactly `0‥n`; both calls reset `current` to 0. -/
theorem C7_set_mode_order (e : FlashCardEngine) (rng : Nat → Nat) :
    (e.set_random false rng).order = List.range e.questions.length ∧
    (e.set_random false rng).current = 0 ∧
    ((e.set_random true rng).order).Perm (List.range e.questions.length) ∧
    ((e.set_random true rng).order).mergeSort (fun x y => decide (x ≤ y)) =
      List.range e.questions.length ∧
    (e.set_random true rng).current = 0 := by
  have hperm : ((e.set_random true rng).order).Perm (List.range e.questions.length) :=
    shuffle_perm rng (List.range e.questions.length)
  refine ⟨rfl, rfl, hperm, ?_, rfl⟩
  have hsorted :
      List.Sorted (· ≤ ·)
        (((e.set_random true rng).order).mergeSort (fun x y => decide (x ≤ y))) := by
    have := @List.sorted_mergeSort Nat (fun x y => decide (x ≤ y))
      (fun x y z hxy hyz => by
        simp only [decide_eq_true_eq] at hxy hyz ⊢; omega)
      (fun x y => by
        simp only [Bool.or_eq_true, decide_eq_true_eq]; omega)
      ((e.set_random true rng).order)
    exact this.imp (fun h => by simpa using h)
  exact List.eq_of_perm_of_sorted
    ((List.mergeSort_perm _ _).trans hperm) hsorted (List.pairwise_le_range _)

/-- C8.  `len(questions) == len(answers)` after every load (`from_files`
constructs an engine only when the counts agree, and otherwise fails with
a mismatch error carrying both counts), after every insert of a new blank
card, and after every delete of the selected card; after each insert or
delete, `order` is rebuilt as the identity permutation over the new
length. -/
theorem C8_parallel_lengths_and_identity_order :
    (∀ qc ac e, FlashCardEngine.from_files qc ac = .ok e →
        e.questions.length = e.answers.length ∧
        e.order = List.range e.questions.length ∧ e.current = 0) ∧
    (∀ qc ac, (read_nonempty_lines qc).length ≠ (read_nonempty_lines ac).length →
        FlashCardEngine.from_files qc ac =
          .error (.mismatch (read_nonempty_lines qc).length
            (read_nonempty_lines ac).length)) ∧
    (∀ (env : Env) (a : App) (w : World) (e : FlashCardEngine),
        a.screen = .cardList → a.eng = some e →
        e.questions.length = e.answers.length →
        ∃ e', (handle env a w (.char 'n' false)).engine = some e' ∧
          e'.questions.length = e'.answers.length ∧
          e'.order = List.range e'.questions.length) ∧
    (∀ (env : Env) (a : App) (w : World) (e : FlashCardEngine),
        a.screen = .cardList → a.eng = some e →
        e.questions.length = e.answers.length →
        a.selected_card < e.questions.length →
        ∃ e', (handle env a w (.char 'd' false)).engine = some e' ∧
          e'.questions.length = e'.answers.length ∧
          e'.order = List.range e'.questions.length) := by
  refine ⟨?_, ?_, ?_, ?_⟩
  · intro qc ac e h
    simp only [FlashCardEngine.from_files] at h
    split at h
    · exact absurd h (by simp)
    · next hc =>
      cases h
      refine ⟨?_, rfl, rfl⟩
      show (read_nonempty_lines qc).length = (read_nonempty_lines ac).length
      omega
  · intro qc ac h
    simp only [FlashCardEngine.from_files]
    rw [if_pos h]
  · intro env a w e hs he hlen
    cases a
    subst hs
    subst he
    refine ⟨_, rfl, ?_, ?_⟩
    · simp [hlen]
    · simp
  · intro env a w e hs he hlen hsel
    obtain ⟨eng, screen, input, cursor, rs, tps, st, ti, ct, iem, sc, ps⟩ := a
    subst hs
    subst he
    have hsel' : sc < e.questions.length := hsel
    have hsel2 : sc < e.answers.length := hlen ▸ hsel'
    refine ⟨{ e with questions := e.questions.eraseIdx sc,
                     answers := e.answers.eraseIdx sc,
                     order := List.range (e.questions.length - 1) }, ?_, ?_, ?_⟩
    · delta handle
      simp [Step.engine, hsel', hsel2]
    · simp [List.length_eraseIdx, hsel', hsel2, hlen]
    · simp [List.length_eraseIdx, hsel']

/-- The engine loaded from the two-card topic (used by the witnesses). -/
def engTwoCards : FlashCardEngine :=
  { questions := [['q', '1'], ['q', '2']], answers := [['a', '1'], ['a', '2']],
    order := [0, 1], current := 0, random := false, responses := [], seen := [] }

/-- A concrete card-list state for the C8 witness: the loaded two-card
engine, editing from the card list. -/
def appCardList : App :=
  { App.new with eng := some engTwoCards, screen := .cardList, in_edit_mode := true }

/-- Witness for C8 at concrete inputs: a mismatched load fails with the
counts, and insert/delete on a concrete two-card deck keep the parallel
lengths with identity order. -/
theorem C8_parallel_lengths_and_identity_order_witness :
    ((read_nonempty_lines twoCardQ).length ≠ (read_nonempty_lines oneCardA).length ∧
      appCardList.screen = .cardList ∧ appCardList.eng = some engTwoCards ∧
      engTwoCards.questions.length = engTwoCards.answers.length ∧
      appCardList.selected_card < engTwoCards.questions.length) ∧
    FlashCardEngine.from_files twoCardQ oneCardA =
      .error (.mismatch (read_nonempty_lines twoCardQ).length
        (read_nonempty_lines oneCardA).length) ∧
    (∃ e', (handle envTwo appCardList w0 (.char 'n' false)).engine = some e' ∧
      e'.questions.length = e'.answers.length ∧
      e'.order = List.range e'.questions.length) ∧
    (∃ e', (handle envTwo appCardList w0 (.char 'd' false)).engine = some e' ∧
      e'.questions.length = e'.answers.length ∧
      e'.order = List.range e'.questions.length) :=
  ⟨⟨by decide, rfl, rfl, rfl, by decide⟩,
    C8_parallel_lengths_and_identity_order.2.1 twoCardQ oneCardA (by decide),
    C8_parallel_lengths_and_identity_order.2.2.1 envTwo appCardList w0
      engTwoCards rfl rfl rfl,
    C8_parallel_lengths_and_identity_order.2.2.2 envTwo appCardList w0
      engTwoCards rfl rfl rfl (by decide)⟩

/-- C9, counterexample.  A whitespace-only topic name is *not* rejected:
typing `c`, a space, then Enter creates the topic directory for `" "`,
constructs an engine, appends `" "` to the topic list, and moves to the
main menu — not back to topic-select as the claim requires for blank
names. -/
theorem C9_blank_topic_name_accepted :
    ((runEvents envEmptyTopic (initialApp []) w0
      [.char 'c' false, .char ' ' false, .enter]).app).map
      (fun a => (a.screen, a.topics, a.eng.isSome, a.current_topic)) =
      some (Screen.mainMenu, [[' ']], true, some [' ']) ∧
    ((runEvents envEmptyTopic (initialApp []) w0
      [.char 'c' false, .char ' ' false, .enter]).world).map World.createdDirs =
      some [[' ']] := by
  constructor <;> decide

/-- C9, amended: submitting a *strictly empty* topic name on the
topic-create screen is rejected exactly as the claim describes — no
engine is created, no directory or file side effect occurs, no entry is
added to the topic list, and the controller returns to topic-select
(everything except the screen and the already-empty input buffer is
unchanged, including the world).  A whitespace-only (blank but non-empty)
name, however, passes the `is_empty` test and creates a topic, as the
counterexample shows. -/
theorem C9_empty_topic_rejected (env : Env) (a : App) (w : World)
    (hs : a.screen = .topicCreate) (hi : a.topic_input = []) :
    handle env a w .enter =
      .ok { a with screen := .topicSelect, topic_input := [] } w false := by
  cases a
  subst hs
  subst hi
  rfl

/-- Witness for the amended C9 at a concrete topic-create state. -/
theorem C9_empty_topic_rejected_witness :
    ({ App.new with screen := .topicCreate }.screen = Screen.topicCreate ∧
      { App.new with screen := .topicCreate }.topic_input = []) ∧
    handle envTwo { App.new with screen := .topicCreate } w0 .enter =
      .ok { { App.new with screen := .topicCreate } with
            screen := .topicSelect, topic_input := [] } w0 false :=
  ⟨⟨rfl, rfl⟩,
    C9_empty_topic_rejected envTwo { App.new with screen := .topicCreate } w0 rfl rfl⟩

/-- Characterisation of `save_session_go`: when it succeeds, it emits one
entry per position of the remaining order, with the 1-based session
position offset by the loop counter, the 1-based deck position, the
question, the latest recorded response (or the placeholder), and the
answer. -/
theorem save_session_go_spec (e : FlashCardEngine) :
    ∀ (ord : List Nat) (i0 : Nat) (es : List Entry),
      FlashCardEngine.save_session_go e i0 ord = some es →
      es.length = ord.length ∧
      ∀ j idx, ord.get? j = some idx →
        ∃ q ans, e.questions.get? idx = some q ∧ e.answers.get? idx = some ans ∧
          es.get? j = some ⟨i0 + j + 1, idx + 1, q,
            (mapGet idx e.responses).getD noneStr, ans⟩ := by
  intro ord
  induction ord with
  | nil =>
    intro i0 es h
    simp only [FlashCardEngine.save_session_go, Option.some.injEq] at h
    subst h
    exact ⟨rfl, fun j idx hj => by simp at hj⟩
  | cons idx rest ih =>
    intro i0 es h
    simp only [FlashCardEngine.save_session_go] at h
    cases hq : e.questions.get? idx with
    | none => rw [hq] at h; cases e.answers.get? idx <;> simp at h
    | some q =>
      cases ha : e.answers.get? idx with
      | none => rw [hq, ha] at h; simp at h
      | some ans =>
        rw [hq, ha] at h
        obtain ⟨t, ht, rfl⟩ := Option.map_eq_some'.mp h
        obtain ⟨hlen, hspec⟩ := ih (i0 + 1) t ht
        refine ⟨by simp [hlen], ?_⟩
        intro j idx' hj
        cases j with
        | zero =>
          simp only [List.get?_cons_zero, Option.some.injEq] at hj
          subst hj
          exact ⟨q, ans, hq, ha, rfl⟩
        | succ m =>
          simp only [List.get?_cons_succ] at hj
          obtain ⟨q', ans', hq', ha', ht'⟩ := hspec m idx' hj
          refine ⟨q', ans', hq', ha', ?_⟩
          rw [List.get?_cons_succ, ht']
          have harith : i0 + 1 + m + 1 = i0 + (m + 1) + 1 := by omega
          rw [harith]

/-- C10.  A transcript is produced by the exit path only when the final
screen is the done screen and the response map is non-empty (first two
conjuncts characterise the guard in both directions, so exiting from any
other screen — including via confirm-quit mid-session — writes nothing
and discards the recorded responses); and when produced, the transcript
lists every card in study order with its 1-based session position,
1-based deck position, question, latest recorded response or the literal
`(none)` placeholder, and answer. -/
theorem C10_transcript_guard_and_format :
    (∀ a es, mainEpilogue a = some es →
        a.screen = .done ∧
        ∃ e, a.eng = some e ∧ e.responses ≠ [] ∧ e.save_session = some es) ∧
    (∀ (a : App) (e : FlashCardEngine), a.screen = .done → a.eng = some e →
        e.responses ≠ [] → mainEpilogue a = e.save_session) ∧
    (∀ (e : FlashCardEngine) (es : List Entry), e.save_session = some es →
        es.length = e.order.length ∧
        ∀ j idx, e.order.get? j = some idx →
          ∃ q ans, e.questions.get? idx = some q ∧ e.answers.get? idx = some ans ∧
            es.get? j = some ⟨j + 1, idx + 1, q,
              (mapGet idx e.responses).getD noneStr, ans⟩) := by
  refine ⟨?_, ?_, ?_⟩
  · intro a es h
    rw [mainEpilogue] at h
    split at h
    · next hs =>
      cases haeng : a.eng with
      | none => rw [haeng] at h; simp at h
      | some e =>
        rw [haeng] at h
        have h2 : (if e.responses ≠ [] then e.save_session else none) = some es := h
        by_cases hr : e.responses ≠ []
        · rw [if_pos hr] at h2
          exact ⟨hs, e, rfl, hr, h2⟩
        · rw [if_neg hr] at h2
          simp at h2
    · simp at h
  · intro a e hs he hr
    rw [mainEpilogue, if_pos hs, he]
    show (if e.responses ≠ [] then e.save_session else none) = e.save_session
    rw [if_pos hr]
  · intro e es h
    obtain ⟨hlen, hspec⟩ := save_session_go_spec e e.order 0 es h
    refine ⟨hlen, ?_⟩
    intro j idx hj
    obtain ⟨q, ans, hq, ha, hes⟩ := hspec j idx hj
    exact ⟨q, ans, hq, ha, by simpa using hes⟩

/-- A completed one-card session used by the C10 witness. -/
def engDoneSession : FlashCardEngine :=
  { questions := [['2', '+', '2', '?']], answers := [['4']], order := [0],
    current := 1, random := false, responses := [(0, ['4'])], seen := [0] }

/-- Witness for C10: on a finished one-card session sitting on the done
screen, the epilogue writes exactly the expected one-entry transcript. -/
theorem C10_transcript_guard_and_format_witness :
    mainEpilogue { App.new with screen := .done, eng := some engDoneSession } =
      FlashCardEngine.save_session engDoneSession ∧
    FlashCardEngine.save_session engDoneSession =
      some [⟨1, 1, ['2', '+', '2', '?'], ['4'], ['4']⟩] :=
  ⟨C10_transcript_guard_and_format.2.1
      { App.new with screen := .done, eng := some engDoneSession }
      engDoneSession rfl rfl (by decide),
    by decide⟩
